import Mathlib

/-!
Verification of the bwh VPS-management client against its specification.

This file gives a shallow embedding, in Lean 4, of the core of the `bwh`
repository (a Go client library / CLI for the BandwagonHost VPS API):

* the wire-value model and the `FlexibleInt` numeric decoder
  (`pkg/client`, types file);
* the tagged error model `BWHError` with its rendering and the
  `IsAuthenticationError` / `IsLockedError` predicates (`pkg/client/errors`);
* the response envelope `BaseResponse` and the wrapping helpers
  `wrapErrorWithBase` / `wrapOnlyErrorFromBase` (`pkg/client/client.go`);
* the query-string construction of `doRequest` / `doRequestWithTimeout`
  (`pkg/client/client.go`);
* the IPv4 range aggregation and API-key masking helpers of the CLI
  (`cmd/bwh`);
* the migration-wait polling protocol of `migrate start --wait`
  (`cmd/bwh/migrate.go`), embedded as a deterministic transition system
  driven by an explicit schedule of select-events.

Go machine integers are modelled as `Int` (with explicit 64-bit bounds where
the code's `int64` overflow behaviour matters), Go strings as Lean `String`
(or `List Char` for byte-level slicing), Go maps as association lists, and
fallible operations as `Option`.
-/

namespace BWH

/-! ## Wire values and the Flexible Numeric Decoder

`FlexibleInt.UnmarshalJSON` (types file of `pkg/client`) receives the raw
JSON wire value.  We model JSON wire values by an inductive type; JSON
numbers carry their (integer) value.  Go's `json.Unmarshal` into an `int64`
succeeds exactly on integer JSON numbers within the signed 64-bit range;
into a `string` it succeeds exactly on JSON strings.
-/

/-- Model of a JSON wire value.  `num n` is the integer JSON number `n`;
non-integral JSON numbers never occur for the provider's numeric fields and
are outside the model. -/
inductive Json where
  | num (n : Int)
  | str (s : String)
  | bool (b : Bool)
  | null
  | arr (elems : List Json)
  | obj (fields : List (String × Json))

/-- Smallest value of Go's `int64`. -/
def int64Min : Int := -(2 ^ 63)

/-- Largest value of Go's `int64`. -/
def int64Max : Int := 2 ^ 63 - 1

/-- Go `json.Unmarshal(data, &intVal)` for `intVal : int64`: succeeds iff the
wire value is an (integral) JSON number in the signed 64-bit range. -/
def unmarshalInt64 : Json → Option Int
  | .num n => if int64Min ≤ n ∧ n ≤ int64Max then some n else none
  | _ => none

/-- Go `json.Unmarshal(data, &strVal)` for `strVal : string`: succeeds iff
the wire value is a JSON string. -/
def unmarshalString : Json → Option String
  | .str s => some s
  | _ => none

/-- Core of Go `strconv.ParseInt(s, 10, 64)` on the character list of `s`:
an optional single `+`/`-` sign, then at least one decimal digit, and the
resulting value must fit in `int64`; anything else is an error (`none`). -/
def parseInt10Chars (cs : List Char) : Option Int :=
  let signDigits : Int × List Char :=
    match cs with
    | '+' :: rest => (1, rest)
    | '-' :: rest => (-1, rest)
    | l => (1, l)
  match signDigits with
  | (sign, digits) =>
    if digits.isEmpty then none
    else if digits.all (fun c => c.isDigit) then
      let n : Nat := digits.foldl (fun acc c => acc * 10 + (c.toNat - '0'.toNat)) 0
      let v : Int := sign * (n : Int)
      if int64Min ≤ v ∧ v ≤ int64Max then some v else none
    else none

/-- Go `strconv.ParseInt(s, 10, 64)`. -/
def parseInt10 (s : String) : Option Int :=
  parseInt10Chars s.data

/-- `FlexibleInt` wraps a 64-bit signed integer (Go field `Value int64`). -/
structure FlexibleInt where
  Value : Int
deriving DecidableEq

/-- Shallow embedding of `FlexibleInt.UnmarshalJSON`: try to unmarshal the
wire value as an `int64`; failing that, as a string parsed by
`strconv.ParseInt(_, 10, 64)`; if both fail the value is `0`.  The Go method
always returns `nil` (no error), which the model reflects by being total. -/
def FlexibleInt.UnmarshalJSON (data : Json) : FlexibleInt :=
  match unmarshalInt64 data with
  | some intVal => { Value := intVal }
  | none =>
    match unmarshalString data with
    | some strVal =>
      match parseInt10 strVal with
      | some parsed => { Value := parsed }
      | none => { Value := 0 }
    | none => { Value := 0 }

example : FlexibleInt.UnmarshalJSON (.num 42) = { Value := 42 } := by decide
example : FlexibleInt.UnmarshalJSON (.str "123") = { Value := 123 } := by decide
example : FlexibleInt.UnmarshalJSON (.str "-7") = { Value := -7 } := by decide
example : FlexibleInt.UnmarshalJSON (.str "") = { Value := 0 } := by decide
example : FlexibleInt.UnmarshalJSON (.str "12a") = { Value := 0 } := by decide
example : FlexibleInt.UnmarshalJSON .null = { Value := 0 } := by decide
example : FlexibleInt.UnmarshalJSON (.bool true) = { Value := 0 } := by decide

/-! ## Error model (`pkg/client/errors` file)

`BWHError` is the tagged domain error; `AdditionalLockingInfo` is the
locking-progress record.  Go `error` values reaching the helpers are either
a `*BWHError` or some other (transport) error, modelled by `GoError`.
-/

/-- Locking-progress record (`AdditionalLockingInfo` struct). -/
structure AdditionalLockingInfo where
  LastStatusUpdateSecondsAgo : Int
  CompletedPercent : Int
  FriendlyProgressMessage : String
deriving DecidableEq

/-- Tagged domain error (`BWHError` struct). -/
structure BWHError where
  Code : Int
  Message : String
  AdditionalErrorInfo : String := ""
  AdditionalLockingInfo : Option AdditionalLockingInfo := none
deriving DecidableEq

/-- A Go `error` value as seen by the client's error helpers: either a
`*BWHError` (domain error) or any other error (transport failures etc.),
which the helpers only ever inspect via a failed type assertion. -/
inductive GoError where
  | bwh (e : BWHError)
  | transport (msg : String)
deriving DecidableEq

/-- Shallow embedding of `(*BWHError).Error()`: base line
`BWH API error <code>[: <message>]`, then an `Operation:` line when
`AdditionalErrorInfo` is nonempty, then a `Progress:` line when
`AdditionalLockingInfo` is present, with the `(updated Ns ago)` suffix only
when the elapsed value is positive. -/
def BWHError.Error (e : BWHError) : String :=
  let msg :=
    if e.Message ≠ "" then "BWH API error " ++ toString e.Code ++ ": " ++ e.Message
    else "BWH API error " ++ toString e.Code
  let msg :=
    if e.AdditionalErrorInfo ≠ "" then msg ++ ("\nOperation: " ++ e.AdditionalErrorInfo)
    else msg
  match e.AdditionalLockingInfo with
  | some info =>
    let msg := msg ++ ("\nProgress: " ++ toString info.CompletedPercent ++ "% complete - "
      ++ info.FriendlyProgressMessage)
    if info.LastStatusUpdateSecondsAgo > 0 then
      msg ++ (" (updated " ++ toString info.LastStatusUpdateSecondsAgo ++ "s ago)")
    else msg
  | none => msg

/-- Go `GetBWHError`: the `err.(*BWHError)` type assertion, as an `Option`. -/
def GetBWHError : GoError → Option BWHError
  | .bwh e => some e
  | .transport _ => none

/-- Go `IsBWHError`. -/
def IsBWHError (err : GoError) : Bool :=
  (GetBWHError err).isSome

/-- Go `IsAuthenticationError`: a domain error with code 700005. -/
def IsAuthenticationError (err : GoError) : Bool :=
  match GetBWHError err with
  | some bwhErr => bwhErr.Code == 700005
  | none => false

/-- Go `IsLockedError`: a domain error with code 788888. -/
def IsLockedError (err : GoError) : Bool :=
  match GetBWHError err with
  | some bwhErr => bwhErr.Code == 788888
  | none => false

/-! ## Response envelope and wrapping helpers (`pkg/client/client.go`) -/

/-- Response envelope (`BaseResponse` struct). -/
structure BaseResponse where
  Error : Int
  Message : String := ""
  AdditionalErrorInfo : String := ""
  AdditionalLockingInfo : Option AdditionalLockingInfo := none
deriving DecidableEq

/-- Shallow embedding of `wrapErrorWithBase[T]`: Go's `(T, error)` return is
modelled as `T × Option BWHError` and Go's `var zero T` as `default`. -/
def wrapErrorWithBase {T : Type} [Inhabited T] (resp : T) (base : BaseResponse) :
    T × Option BWHError :=
  if base.Error ≠ 0 then
    ((default : T),
     some { Code := base.Error, Message := base.Message,
            AdditionalErrorInfo := base.AdditionalErrorInfo,
            AdditionalLockingInfo := base.AdditionalLockingInfo })
  else (resp, none)

/-- Shallow embedding of `wrapOnlyErrorFromBase`. -/
def wrapOnlyErrorFromBase (base : BaseResponse) : Option BWHError :=
  if base.Error ≠ 0 then
    some { Code := base.Error, Message := base.Message,
           AdditionalErrorInfo := base.AdditionalErrorInfo,
           AdditionalLockingInfo := base.AdditionalLockingInfo }
  else none

example : wrapOnlyErrorFromBase { Error := 0 } = none := by decide
example : wrapErrorWithBase (7 : Int) { Error := 0 } = (7, none) := by decide
example : (wrapErrorWithBase (7 : Int) { Error := 3, Message := "boom" }).1 = 0 := by decide
def sampleLockedError : BWHError :=
  { Code := 788888
    Message := "locked"
    AdditionalErrorInfo := "Migrating"
    AdditionalLockingInfo := some { LastStatusUpdateSecondsAgo := 4
                                    CompletedPercent := 50
                                    FriendlyProgressMessage := "Copying disk" } }

example :
    BWHError.Error sampleLockedError =
    "BWH API error 788888: locked\nOperation: Migrating\nProgress: 50% complete - Copying disk (updated 4s ago)" := by
  decide

/-! ## Request URL construction (`doRequest` / `doRequestWithTimeout`)

Both executors build the query string identically (lines 250–257 and
431–438 of `pkg/client/client.go`):

    q := u.Query()
    q.Set("veid", c.veid)
    q.Set("api_key", c.apiKey)
    for k, v := range params { q.Set(k, v) }

`url.Values` is a map from keys to value lists and `Set` replaces the list
for the key by the single given value; we model it by an association list
with unique keys.  The caller's Go map `params` is modelled by an
association list as well (`Set` makes the later entry win per key, matching
map semantics where keys are unique).
-/

/-- Model of `url.Values.Set`: drop any existing entries for the key and
record the single new value. -/
def qSet : List (String × String) → String → String → List (String × String)
  | [], k, v => [(k, v)]
  | p :: rest, k, v => if p.1 = k then qSet rest k v else p :: qSet rest k v

/-- Model of `url.Values.Get`: the first value recorded for the key. -/
def qGet : List (String × String) → String → Option String
  | [], _ => none
  | p :: rest, k => if p.1 = k then some p.2 else qGet rest k

/-- Query string built by `doRequest`/`doRequestWithTimeout`: identity
parameters first, then every caller parameter via `Set`. -/
def doRequestQuery (veid apiKey : String) (params : List (String × String)) :
    List (String × String) :=
  params.foldl (fun q p => qSet q p.1 p.2) (qSet (qSet [] "veid" veid) "api_key" apiKey)

example : qGet (doRequestQuery "123" "KEY" [("location", "tyo")]) "veid" = some "123" := by
  decide
example : qGet (doRequestQuery "123" "KEY" [("veid", "999")]) "veid" = some "999" := by
  decide

/-! ## IPv4 helpers of the CLI (`cmd/bwh`) -/

/-- Splits a character list at every `.` (model of `strings.Split(s, ".")`). -/
def splitOnDot : List Char → List (List Char)
  | [] => [[]]
  | c :: rest =>
    let r := splitOnDot rest
    if c = '.' then [] :: r
    else
      match r with
      | [] => [[c]]
      | h :: t => (c :: h) :: t

/-- One dotted-quad octet as accepted by `net.ParseIP`: one to three decimal
digits, value at most 255, and no leading zero. -/
def parseOctet (cs : List Char) : Option Nat :=
  if cs ≠ [] ∧ cs.length ≤ 3 ∧ cs.all (fun c => c.isDigit)
      ∧ ¬(cs.length > 1 ∧ cs.headI = '0') then
    let n := cs.foldl (fun acc c => acc * 10 + (c.toNat - '0'.toNat)) 0
    if n ≤ 255 then some n else none
  else none

/-- Go `ipv4ToUint32`: `net.ParseIP` restricted to dotted-quad IPv4 (the
only form the private-IP lists contain), packed big-endian into a 32-bit
value.  `none` models the `(0, false)` return. -/
def ipv4ToUint32 (s : String) : Option Nat :=
  match splitOnDot s.data with
  | [p1, p2, p3, p4] =>
    match parseOctet p1, parseOctet p2, parseOctet p3, parseOctet p4 with
    | some a, some b, some c, some d => some (a * 2 ^ 24 + b * 2 ^ 16 + c * 2 ^ 8 + d)
    | _, _, _, _ => none
  | _ => none

/-- Go `uint32ToIPv4`: the four big-endian bytes joined with dots. -/
def uint32ToIPv4 (n : Nat) : String :=
  toString (n / 2 ^ 24 % 256) ++ "." ++ toString (n / 2 ^ 16 % 256) ++ "."
    ++ toString (n / 2 ^ 8 % 256) ++ "." ++ toString (n % 256)

/-- Go `splitIPv4`: split on dots, `strconv.Atoi` each part with errors
ignored (yielding 0); anything but four parts yields four zeros. -/
def splitIPv4 (s : String) : Int × Int × Int × Int :=
  match splitOnDot s.data with
  | [p1, p2, p3, p4] =>
    ((parseInt10Chars p1).getD 0, (parseInt10Chars p2).getD 0,
     (parseInt10Chars p3).getD 0, (parseInt10Chars p4).getD 0)
  | _ => (0, 0, 0, 0)

/-- The `flush` closure of `aggregateIPv4Ranges`: renders the run from `a`
to `b`, using last-octet shorthand when the first three octets agree. -/
def flushRange (a b : Nat) : String :=
  if a = b then uint32ToIPv4 a
  else
    let as := uint32ToIPv4 a
    let bs := uint32ToIPv4 b
    match splitIPv4 as, splitIPv4 bs with
    | (a1, a2, a3, a4), (b1, b2, b3, b4) =>
      if a1 = b1 ∧ a2 = b2 ∧ a3 = b3 then
        toString a1 ++ "." ++ toString a2 ++ "." ++ toString a3 ++ "."
          ++ toString a4 ++ "-" ++ toString b4
      else as ++ "-" ++ bs

/-- Parse-and-dedupe pass of `aggregateIPv4Ranges`: keep the first
occurrence of each parseable address, in input order. -/
def dedupeParsedIPv4 (ips : List String) : List Nat :=
  ips.foldl
    (fun acc s =>
      match ipv4ToUint32 s with
      | some n => if acc.contains n then acc else acc ++ [n]
      | none => acc)
    []

/-- Ascending insertion into a sorted list (model of `sort.Slice` order). -/
def insertSorted (n : Nat) : List Nat → List Nat
  | [] => [n]
  | m :: rest => if n ≤ m then n :: m :: rest else m :: insertSorted n rest

/-- Ascending sort (model of the `sort.Slice(nums, ...)` call). -/
def sortNats (l : List Nat) : List Nat :=
  l.foldr insertSorted []

/-- Main grouping loop of `aggregateIPv4Ranges`: extend the current run
while the next value is the previous or its successor, else flush. -/
def groupRuns (start prev : Nat) : List Nat → List String
  | [] => [flushRange start prev]
  | n :: rest =>
    if n = prev ∨ n = prev + 1 then groupRuns start n rest
    else flushRange start prev :: groupRuns n n rest

/-- Go `aggregateIPv4Ranges`: returns the rendered ranges and the count of
distinct parseable addresses. -/
def aggregateIPv4Ranges (ips : List String) : List String × Nat :=
  let nums := sortNats (dedupeParsedIPv4 ips)
  match nums with
  | [] => ([], 0)
  | n0 :: rest => (groupRuns n0 n0 rest, nums.length)

example : ipv4ToUint32 "10.0.0.1" = some 167772161 := by decide
example : aggregateIPv4Ranges ["10.0.0.1", "10.0.0.2", "10.0.0.4"] =
    (["10.0.0.1-2", "10.0.0.4"], 3) := by decide

/-! ## API-key masking (`cmd/bwh`, config command file)

Go strings are byte slices here; we model the key as a `List Char`
(one `Char` per byte — API keys are ASCII) so that `apiKey[:4]` and
`apiKey[len-4:]` are `take`/`drop`.
-/

/-- Go `maskAPIKey`: keys of length at most 8 are fully masked; longer keys
reveal only the first four and last four characters. -/
def maskAPIKey (apiKey : List Char) : List Char :=
  if apiKey.length ≤ 8 then List.replicate apiKey.length '*'
  else apiKey.take 4 ++ List.replicate (apiKey.length - 8) '*'
    ++ apiKey.drop (apiKey.length - 4)

example : maskAPIKey "abcd1234wxyz".data = "abcd****wxyz".data := by decide
example : maskAPIKey "secret".data = "******".data := by decide

/-! ## Migration-wait protocol (`cmd/bwh/migrate.go`, wait mode)

The wait mode of `migrate start` runs the accept call in a goroutine and a
`select` loop over four channels: the 5-second ticker (each tick issues the
unlock probe `GetMigrateLocations`), the accept result channel, the accept
error channel, and the deadline context's done channel.  We embed one
invocation of the loop as a deterministic transition system driven by an
explicit schedule: a list of `WaitEvent`s, each naming the `select` case
that fires next together with the value it delivers.  Printing is modelled
by an output list; `return` by a terminal `WaitOutcome`.
-/

/-- Payload of the accept call (`client.MigrateStartResponse`).  The struct
declaration is not among the provided sources; its fields are those read by
`cmd/bwh/migrate.go` and §3/§4.5 of the spec (new IP set and notification
email, beside the envelope). -/
structure MigrateStartResponse where
  NewIPs : List String
  NotificationEmail : String
deriving DecidableEq

/-- Payload of the unlock probe (`client.MigrateLocationsResponse`).  The
struct declaration is not among the provided sources; its fields are those
read by `cmd/bwh/migrate.go` and §3 of the spec (current location plus the
candidate set with descriptions and transfer multipliers). -/
structure MigrateLocationsResponse where
  CurrentLocation : String
  Locations : List String := []
  Descriptions : List (String × String) := []
  DataTransferMultipliers : List (String × Int) := []
deriving DecidableEq

deriving instance DecidableEq for Except

/-- One firing of a `select` case in the wait loop, with the value the
channel delivers: a ticker tick carrying the unlock probe's result, the
accept call's result or error, or the deadline context firing. -/
inductive WaitEvent where
  | tick (probe : Except GoError MigrateLocationsResponse)
  | acceptOk (resp : MigrateStartResponse)
  | acceptErr (e : GoError)
  | ctxDone
deriving DecidableEq

/-- One line of user-visible reporting printed by the wait loop. -/
inductive WaitOutput where
  | operationInfo (s : String)
  | progressReport (percent : Int) (msg : String) (updatedSecondsAgo : Int)
  | acceptedReport (resp : MigrateStartResponse)
  | unlockedReport (currentLocation : String) (newIPs : List String)
deriving DecidableEq

/-- Terminal result of the wait loop: probe succeeded (`return nil`),
non-lock error from the accept call (`return migration failed`), or the
deadline fired (`return migration timed out`). -/
inductive WaitOutcome where
  | success
  | failed (e : GoError)
  | timedOut
deriving DecidableEq

/-- Mutable loop state of one invocation: `lastPercent`, `lastMsg`,
`lastOperation` (the on-change de-duplication state) and the retained
accept response. -/
structure WaitState where
  lastPercent : Int
  lastMsg : String
  lastOperation : String
  acceptResp : Option MigrateStartResponse
deriving DecidableEq

/-- Initial loop state (`lastPercent := -1`, empty strings, no accept
response yet). -/
def waitInit : WaitState :=
  { lastPercent := -1, lastMsg := "", lastOperation := "", acceptResp := none }

/-- Body of the locked-probe branch: surface `AdditionalErrorInfo` when it
changed, then the locking-progress record when percent or message changed,
updating the de-duplication state; the loop always continues. -/
def processLockedProbe (st : WaitState) (bwhErr : BWHError) :
    WaitState × List WaitOutput :=
  let step1 : WaitState × List WaitOutput :=
    if bwhErr.AdditionalErrorInfo ≠ "" ∧ bwhErr.AdditionalErrorInfo ≠ st.lastOperation then
      ({ st with lastOperation := bwhErr.AdditionalErrorInfo },
       [.operationInfo bwhErr.AdditionalErrorInfo])
    else (st, [])
  match bwhErr.AdditionalLockingInfo with
  | some info =>
    if info.CompletedPercent ≠ step1.1.lastPercent
        ∨ info.FriendlyProgressMessage ≠ step1.1.lastMsg then
      ({ step1.1 with lastPercent := info.CompletedPercent
                      lastMsg := info.FriendlyProgressMessage },
       step1.2 ++ [.progressReport info.CompletedPercent info.FriendlyProgressMessage
         info.LastStatusUpdateSecondsAgo])
    else step1
  | none => step1

/-- One iteration of the `select` loop, given the case that fires.  A
successful probe reports the unlock (with the retained accept response's
new IPs, if any) and terminates; a locked probe error is processed by
`processLockedProbe`; any other probe error is ignored and polling
continues (the `ok && IsLockedError` guard has no else branch); the accept
result is retained and reported as accepted; a locked accept error is
ignored (`continue`); any other accept error terminates the protocol as
failed; the deadline firing terminates it as timed out. -/
def waitStep (st : WaitState) (ev : WaitEvent) :
    WaitState × List WaitOutput × Option WaitOutcome :=
  match ev with
  | .tick (.error perr) =>
    match GetBWHError perr with
    | some bwhErr =>
      if IsLockedError perr then
        ((processLockedProbe st bwhErr).1, (processLockedProbe st bwhErr).2, none)
      else (st, [], none)
    | none => (st, [], none)
  | .tick (.ok resp) =>
    (st,
     [.unlockedReport resp.CurrentLocation
        (match st.acceptResp with
         | some r => r.NewIPs
         | none => [])],
     some .success)
  | .acceptOk resp =>
    ({ st with acceptResp := some resp }, [.acceptedReport resp], none)
  | .acceptErr e =>
    if IsLockedError e then (st, [], none)
    else (st, [], some (.failed e))
  | .ctxDone => (st, [], some .timedOut)

/-- Runs the wait loop over a schedule of events, accumulating outputs,
until an iteration terminates or the schedule is exhausted.  Returns the
outputs, the outcome (`none` when the loop is still polling), and the
unconsumed rest of the schedule. -/
def runWait (st : WaitState) : List WaitEvent → List WaitOutput × Option WaitOutcome × List WaitEvent
  | [] => ([], none, [])
  | ev :: rest =>
    match waitStep st ev with
    | (st1, outs, none) =>
      match runWait st1 rest with
      | (outs2, oc, rem) => (outs ++ outs2, oc, rem)
    | (_, outs, some oc) => (outs, some oc, rest)

/-- Number of ticker events (unlock-probe invocations) in a schedule. -/
def countTicks (evs : List WaitEvent) : Nat :=
  (evs.filter fun ev =>
    match ev with
    | .tick _ => true
    | _ => false).length

/-- Number of unlock-probe invocations actually performed in a run: ticks
of the schedule minus ticks left unconsumed. -/
def consumedTicks (st : WaitState) (evs : List WaitEvent) : Nat :=
  countTicks evs - countTicks (runWait st evs).2.2

/-- Number of locking-progress reports in an output list. -/
def countProgressReports (outs : List WaitOutput) : Nat :=
  (outs.filter fun o =>
    match o with
    | .progressReport _ _ _ => true
    | _ => false).length

/-- The resource-locked error of the C1/C2 polling scenarios: code 788888
with progress 50% "Copying disk" and no operation description. -/
def lockedErr50 : GoError :=
  .bwh { Code := 788888
         Message := "VE is currently locked"
         AdditionalErrorInfo := ""
         AdditionalLockingInfo := some { LastStatusUpdateSecondsAgo := 0
                                         CompletedPercent := 50
                                         FriendlyProgressMessage := "Copying disk" } }

/-- Accept response of the wait-mode scenarios. -/
def acceptResp0 : MigrateStartResponse :=
  { NewIPs := ["203.0.113.5", "2001:db8::1"], NotificationEmail := "user@example.com" }

/-- Probe response once the VE unlocks. -/
def unlockedLoc : MigrateLocationsResponse :=
  { CurrentLocation := "TYO" }

/-- Schedule of the C1 scenario: the start call returns accepted
immediately, the probe is locked with identical progress on the first two
polls and succeeds on the third; the deadline never fires. -/
def progressTrace : List WaitEvent :=
  [.acceptOk acceptResp0,
   .tick (.error lockedErr50),
   .tick (.error lockedErr50),
   .tick (.ok unlockedLoc)]

/-- The domain error of the hard-failure scenario: code 1, "Invalid
location". -/
def invalidLocationErr : GoError :=
  .bwh { Code := 1, Message := "Invalid location" }

/-- A run in which one locked poll happens before the start call resolves
with the non-lock domain error. -/
def failfastTrace : List WaitEvent :=
  [.tick (.error lockedErr50), .acceptErr invalidLocationErr]

/-- Events admissible in the always-locked timeout scenario: every probe
returns the resource-locked error, and the accept call either returns a
result or is itself lock-rejected; the deadline has not fired. -/
def lockedScenarioEvent : WaitEvent → Prop
  | .tick p => ∃ e, p = .error e ∧ IsLockedError e = true
  | .acceptOk _ => True
  | .acceptErr e => IsLockedError e = true
  | .ctxDone => False

/-! ## Rendering described by the specification (for the refinement claim C8) -/

/-- The error rendering as the spec states it, as a flat concatenation:
the base `code: message` line, then an `Operation:` part iff the
operation-in-progress description is present, then a `Progress:` part iff
the locking-progress record is present, with the `(updated Ns ago)` suffix
only when the elapsed value is positive.  To be compared with the
source-derived `BWHError.Error`. -/
def specErrorRendering (e : BWHError) : String :=
  (if e.Message ≠ "" then "BWH API error " ++ toString e.Code ++ ": " ++ e.Message
   else "BWH API error " ++ toString e.Code)
  ++ (if e.AdditionalErrorInfo ≠ "" then "\nOperation: " ++ e.AdditionalErrorInfo else "")
  ++ (match e.AdditionalLockingInfo with
      | some info =>
        "\nProgress: " ++ toString info.CompletedPercent ++ "% complete - "
          ++ info.FriendlyProgressMessage
          ++ (if info.LastStatusUpdateSecondsAgo > 0 then
                " (updated " ++ toString info.LastStatusUpdateSecondsAgo ++ "s ago)"
              else "")
      | none => "")

/-! ## Theorems for the claims -/

/-- C6: the Flexible Numeric Decoder follows the three-step fallback and
never errors (`FlexibleInt.UnmarshalJSON` is total): an in-range JSON
number is used directly; a JSON string parsed by `strconv.ParseInt(_,10,64)`
yields the parsed integer; null, booleans, and strings that fail to parse
all decode to 0 silently. -/
theorem flexibleInt_decoder_fallback (n : Int) (s : String) (m : Int)
    (hn : int64Min ≤ n ∧ n ≤ int64Max) (hs : parseInt10 s = some m) :
    (FlexibleInt.UnmarshalJSON (.num n)).Value = n ∧
    (FlexibleInt.UnmarshalJSON (.str s)).Value = m ∧
    (FlexibleInt.UnmarshalJSON .null).Value = 0 ∧
    (∀ b, (FlexibleInt.UnmarshalJSON (.bool b)).Value = 0) ∧
    (∀ t, parseInt10 t = none → (FlexibleInt.UnmarshalJSON (.str t)).Value = 0) := by
  refine ⟨?_, ?_, rfl, fun b => rfl, ?_⟩
  · simp only [FlexibleInt.UnmarshalJSON, unmarshalInt64, if_pos hn]
  · simp only [FlexibleInt.UnmarshalJSON, unmarshalInt64, unmarshalString, hs]
  · intro t ht
    simp only [FlexibleInt.UnmarshalJSON, unmarshalInt64, unmarshalString, ht]

/-- Witness for C6 at concrete wire values. -/
theorem flexibleInt_decoder_fallback_witness :
    (FlexibleInt.UnmarshalJSON (.num 42)).Value = 42 ∧
    (FlexibleInt.UnmarshalJSON (.str "123")).Value = 123 := by
  have h := flexibleInt_decoder_fallback 42 "123" 123 (by decide) (by decide)
  exact ⟨h.1, h.2.1⟩

/-- C7: `IsAuthenticationError` holds exactly on domain errors with code
700005 and `IsLockedError` exactly on domain errors with code 788888; both
are false on non-domain errors and on domain errors with other codes. -/
theorem error_code_predicates (err : GoError) :
    (IsAuthenticationError err = true ↔
      ∃ e, GetBWHError err = some e ∧ e.Code = 700005) ∧
    (IsLockedError err = true ↔
      ∃ e, GetBWHError err = some e ∧ e.Code = 788888) := by
  cases err with
  | bwh e => simp [IsAuthenticationError, IsLockedError, GetBWHError]
  | transport m => simp [IsAuthenticationError, IsLockedError, GetBWHError]

/-- C8: the display rendering of a tagged domain error is exactly the
spec's composition: base line, optional `Operation:` part, optional
`Progress:` part with the `(updated Ns ago)` suffix only for a positive
elapsed value. -/
theorem bwhError_rendering (e : BWHError) :
    BWHError.Error e = specErrorRendering e := by
  obtain ⟨c, m, addInfo, lockInfo⟩ := e
  cases lockInfo with
  | none =>
    by_cases hm : m ≠ "" <;> by_cases ha : addInfo ≠ "" <;>
      simp [BWHError.Error, specErrorRendering, hm, ha, String.append_empty,
        String.append_assoc]
  | some info =>
    by_cases hm : m ≠ "" <;> by_cases ha : addInfo ≠ "" <;>
      by_cases hu : info.LastStatusUpdateSecondsAgo > 0 <;>
        simp [BWHError.Error, specErrorRendering, hm, ha, hu, String.append_empty,
          String.append_assoc]

/-- C5: for every decoded envelope, the wrapping helpers return the
populated result and no error when the envelope's error field is 0, and the
zero value of the result type together with a typed `BWHError` carrying
exactly the envelope's code, message, `additionalErrorInfo` and
`additionalLockingInfo` when it is nonzero. -/
theorem wrap_helpers_envelope {T : Type} [Inhabited T] (resp : T) (base : BaseResponse) :
    (base.Error = 0 →
      wrapErrorWithBase resp base = (resp, none) ∧ wrapOnlyErrorFromBase base = none) ∧
    (base.Error ≠ 0 →
      wrapErrorWithBase resp base =
        ((default : T),
         some { Code := base.Error, Message := base.Message,
                AdditionalErrorInfo := base.AdditionalErrorInfo,
                AdditionalLockingInfo := base.AdditionalLockingInfo }) ∧
      wrapOnlyErrorFromBase base =
        some { Code := base.Error, Message := base.Message,
               AdditionalErrorInfo := base.AdditionalErrorInfo,
               AdditionalLockingInfo := base.AdditionalLockingInfo }) := by
  constructor
  · intro h0
    simp [wrapErrorWithBase, wrapOnlyErrorFromBase, h0]
  · intro hne
    simp [wrapErrorWithBase, wrapOnlyErrorFromBase, hne]

/-- Witness for C5 on a success envelope and an error envelope. -/
theorem wrap_helpers_envelope_witness :
    wrapErrorWithBase (7 : Int) { Error := 0 } = (7, none) ∧
    wrapOnlyErrorFromBase { Error := 1, Message := "Invalid location" } =
      some { Code := 1, Message := "Invalid location" } := by
  refine ⟨((wrap_helpers_envelope (7 : Int) { Error := 0 }).1 (by decide)).1, ?_⟩
  exact ((wrap_helpers_envelope (0 : Int)
    { Error := 1, Message := "Invalid location" }).2 (by decide)).2

/-- C9: aggregating the private addresses 10.0.0.1, 10.0.0.2, 10.0.0.4
yields exactly the collapsed run `10.0.0.1-2` (last-octet shorthand) and
the singleton `10.0.0.4`, with a total of 3 addresses. -/
theorem aggregate_ipv4_ranges_example :
    aggregateIPv4Ranges ["10.0.0.1", "10.0.0.2", "10.0.0.4"] =
      (["10.0.0.1-2", "10.0.0.4"], 3) := by
  decide

/-- C10: `maskAPIKey` preserves the key's length; keys of length at most 8
come back entirely as asterisks; and the output depends only on the length,
the first four and the last four characters (two keys agreeing on those
mask identically). -/
theorem maskAPIKey_mask_properties (s : List Char) :
    (maskAPIKey s).length = s.length ∧
    (s.length ≤ 8 → ∀ c ∈ maskAPIKey s, c = '*') ∧
    (∀ t : List Char, s.length = t.length → s.take 4 = t.take 4 →
      s.drop (s.length - 4) = t.drop (t.length - 4) → maskAPIKey s = maskAPIKey t) := by
  refine ⟨?_, ?_, ?_⟩
  · by_cases h : s.length ≤ 8
    · simp [maskAPIKey, h]
    · have h8 : 8 < s.length := Nat.lt_of_not_le h
      simp only [maskAPIKey, if_neg h, List.length_append, List.length_take,
        List.length_replicate, List.length_drop]
      omega
  · intro h c hc
    rw [maskAPIKey, if_pos h] at hc
    exact List.eq_of_mem_replicate hc
  · intro t hlen htake hdrop
    by_cases h : s.length ≤ 8
    · rw [maskAPIKey, if_pos h, maskAPIKey, if_pos (hlen ▸ h), hlen]
    · rw [hlen] at hdrop
      rw [maskAPIKey, if_neg h, maskAPIKey, if_neg (hlen ▸ h), hlen, htake, hdrop]

/-- Witness for C10: two 12-character keys differing only in the middle
mask identically. -/
theorem maskAPIKey_mask_properties_witness :
    maskAPIKey "abcd0000wxyz".data = maskAPIKey "abcd1111wxyz".data := by
  exact (maskAPIKey_mask_properties "abcd0000wxyz".data).2.2 "abcd1111wxyz".data
    (by decide) (by decide) (by decide)

/-- Looking up the key just set yields the new value. -/
theorem qGet_qSet_same (q : List (String × String)) (k v : String) :
    qGet (qSet q k v) k = some v := by
  induction q with
  | nil => simp [qSet, qGet]
  | cons p rest ih =>
    by_cases h : p.1 = k
    · simp [qSet, h, ih]
    · simp [qSet, qGet, h, ih]

/-- Setting one key leaves lookups of other keys unchanged. -/
theorem qGet_qSet_ne (q : List (String × String)) (k v k' : String) (h : k' ≠ k) :
    qGet (qSet q k v) k' = qGet q k' := by
  have hk : ¬k = k' := fun hh => h hh.symm
  induction q with
  | nil => simp [qSet, qGet, hk]
  | cons p rest ih =>
    by_cases hp : p.1 = k
    · simp [qSet, qGet, hp, hk, ih]
    · by_cases hp' : p.1 = k'
      · simp [qSet, qGet, hp, hp', h]
      · simp [qSet, qGet, hp, hp', ih]

/-- Folding `Set` over parameters that avoid a key leaves that key's value
unchanged. -/
theorem qGet_fold_params_ne (params : List (String × String)) (k : String)
    (h : ∀ p ∈ params, p.1 ≠ k) :
    ∀ q, qGet (params.foldl (fun q p => qSet q p.1 p.2) q) k = qGet q k := by
  induction params with
  | nil => intro q; rfl
  | cons p rest ih =>
    intro q
    have hp : p.1 ≠ k := h p (List.mem_cons_self p rest)
    have hrest : ∀ p' ∈ rest, p'.1 ≠ k := fun p' hp' => h p' (List.mem_cons_of_mem p hp')
    rw [List.foldl_cons, ih hrest, qGet_qSet_ne _ _ _ _ (fun hh => hp hh.symm)]

/-- Folding `Set` over any parameters keeps an already-present key present. -/
theorem qGet_fold_params_isSome (params : List (String × String)) (k : String) :
    ∀ q, (qGet q k).isSome → (qGet (params.foldl (fun q p => qSet q p.1 p.2) q) k).isSome := by
  induction params with
  | nil => intro q hq; exact hq
  | cons p rest ih =>
    intro q hq
    rw [List.foldl_cons]
    refine ih _ ?_
    by_cases hp : k = p.1
    · rw [hp, qGet_qSet_same]; rfl
    · rw [qGet_qSet_ne _ _ _ _ hp]; exact hq

/-- Counterexample to C4 as stated: a caller parameter keyed `veid` does
replace the identity's value in the final query (the identity parameters
are set first, the caller's afterwards, and `url.Values.Set` overwrites),
so with identity veid `123` and caller parameter `veid=999` the final URL
carries `veid=999`, not `123`. -/
theorem doRequestQuery_override_counterexample :
    qGet (doRequestQuery "123" "KEY" [("veid", "999")]) "veid" ≠ some "123" := by
  decide

/-- C4 as amended: the final query always carries `veid` and `api_key`
parameters, and whenever the caller-supplied parameters use neither of
those keys the parameters carry exactly the identity's values; a caller
parameter keyed `veid` or `api_key`, however, replaces the identity's
value. -/
theorem doRequestQuery_identity_params (veid apiKey : String)
    (params : List (String × String))
    (hv : ∀ p ∈ params, p.1 ≠ "veid") (ha : ∀ p ∈ params, p.1 ≠ "api_key") :
    qGet (doRequestQuery veid apiKey params) "veid" = some veid ∧
    qGet (doRequestQuery veid apiKey params) "api_key" = some apiKey ∧
    (∀ params' : List (String × String),
      (qGet (doRequestQuery veid apiKey params') "veid").isSome ∧
      (qGet (doRequestQuery veid apiKey params') "api_key").isSome) := by
  have hbase_v : qGet (qSet (qSet [] "veid" veid) "api_key" apiKey) "veid" = some veid := by
    rw [qGet_qSet_ne _ _ _ _ (by decide), qGet_qSet_same]
  have hbase_a : qGet (qSet (qSet [] "veid" veid) "api_key" apiKey) "api_key" = some apiKey :=
    qGet_qSet_same _ _ _
  refine ⟨?_, ?_, ?_⟩
  · rw [doRequestQuery, qGet_fold_params_ne params "veid" hv, hbase_v]
  · rw [doRequestQuery, qGet_fold_params_ne params "api_key" ha, hbase_a]
  · intro params'
    constructor
    · exact qGet_fold_params_isSome params' "veid" _ (by rw [hbase_v]; rfl)
    · exact qGet_fold_params_isSome params' "api_key" _ (by rw [hbase_a]; rfl)

/-- Witness for the amended C4 with a caller parameter map that avoids the
identity keys. -/
theorem doRequestQuery_identity_params_witness :
    qGet (doRequestQuery "123" "KEY" [("location", "tyo")]) "veid" = some "123" ∧
    qGet (doRequestQuery "123" "KEY" [("location", "tyo")]) "api_key" = some "KEY" := by
  have h := doRequestQuery_identity_params "123" "KEY" [("location", "tyo")]
    (by intro p hp; simp at hp; subst hp; decide)
    (by intro p hp; simp at hp; subst hp; decide)
  exact ⟨h.1, h.2.1⟩

/-- A probe error never terminates the loop, locked or not. -/
theorem waitStep_tick_error_outcome (st : WaitState) (e : GoError) :
    (waitStep st (.tick (.error e))).2.2 = none := by
  cases e with
  | bwh b =>
    simp only [waitStep, GetBWHError]
    split <;> rfl
  | transport m => rfl

/-- No event of the always-locked scenario terminates the loop. -/
theorem waitStep_outcome_none_of_locked (st : WaitState) (ev : WaitEvent)
    (h : lockedScenarioEvent ev) : (waitStep st ev).2.2 = none := by
  cases ev with
  | tick p =>
    obtain ⟨e, hp, _⟩ := h
    subst hp
    exact waitStep_tick_error_outcome st e
  | acceptOk r => rfl
  | acceptErr e =>
    have hb : IsLockedError e = true := h
    simp [waitStep, hb]
  | ctxDone => exact h.elim

/-- On a schedule of always-locked events the loop consumes everything and
is still polling (no outcome). -/
theorem runWait_polling_of_locked (evs : List WaitEvent)
    (h : ∀ ev ∈ evs, lockedScenarioEvent ev) :
    ∀ st, (runWait st evs).2.1 = none ∧ (runWait st evs).2.2 = [] := by
  induction evs with
  | nil => intro st; exact ⟨rfl, rfl⟩
  | cons ev rest ih =>
    intro st
    have h1 := waitStep_outcome_none_of_locked st ev (h ev (List.mem_cons_self ev rest))
    rcases hw : waitStep st ev with ⟨st1, outs, oc⟩
    rw [hw] at h1
    simp only at h1
    subst h1
    have hrest := ih (fun e he => h e (List.mem_cons_of_mem ev he)) st1
    rcases hr : runWait st1 rest with ⟨outs2, oc2, rem2⟩
    rw [hr] at hrest
    simp only at hrest
    simp [runWait, hw, hr, hrest.1, hrest.2]

/-- Appending the deadline event to an always-locked schedule terminates
the loop exactly there, with the timeout outcome and nothing left
unconsumed. -/
theorem runWait_timeout_at_deadline (evs : List WaitEvent)
    (h : ∀ ev ∈ evs, lockedScenarioEvent ev) :
    ∀ st, (runWait st (evs ++ [.ctxDone])).2.1 = some .timedOut ∧
      (runWait st (evs ++ [.ctxDone])).2.2 = [] := by
  induction evs with
  | nil => intro st; exact ⟨rfl, rfl⟩
  | cons ev rest ih =>
    intro st
    have h1 := waitStep_outcome_none_of_locked st ev (h ev (List.mem_cons_self ev rest))
    rcases hw : waitStep st ev with ⟨st1, outs, oc⟩
    rw [hw] at h1
    simp only at h1
    subst h1
    have hrest := ih (fun e he => h e (List.mem_cons_of_mem ev he)) st1
    rcases hr : runWait st1 (rest ++ [.ctxDone]) with ⟨outs2, oc2, rem2⟩
    rw [hr] at hrest
    simp only at hrest
    simp [runWait, hw, hr, hrest.1, hrest.2]

/-- Counterexample to C1 as stated: in the scenario (accept returns
immediately; the probe is locked with identical progress on two polls and
succeeds on the third) the protocol surfaces the locking-progress record
exactly once, not twice — the identical second report is suppressed by the
on-change de-duplication. -/
theorem migrate_wait_progress_not_twice :
    countProgressReports (runWait waitInit progressTrace).1 = 1 ∧
    countProgressReports (runWait waitInit progressTrace).1 ≠ 2 := by
  decide

/-- C1 as amended: in that scenario the protocol reports progress exactly
once (on change only, not on every poll), then reports success with the
current location and the retained new addresses, within 3 polling
intervals (the schedule holds exactly 3 ticks and is fully consumed), and
the deadline never fires in the run. -/
theorem migrate_wait_progress_once :
    runWait waitInit progressTrace =
      ([.acceptedReport acceptResp0,
        .progressReport 50 "Copying disk" 0,
        .unlockedReport "TYO" ["203.0.113.5", "2001:db8::1"]],
       some .success, []) ∧
    countProgressReports (runWait waitInit progressTrace).1 = 1 ∧
    countTicks progressTrace = 3 ∧
    (∀ ev ∈ progressTrace, ev ≠ .ctxDone) := by
  decide

/-- C2: whenever every probe comes back locked (and the accept call does
not hard-fail), the wait loop never terminates on its own — it is still
polling after any such schedule — and the deadline context firing
terminates it immediately (within the very iteration it is observed, hence
within one polling interval) with the timeout outcome.  The accept call
and the loop observe the same cancellation signal in the code: the
goroutine calls the accept primitive with `migCtx` and the loop selects on
the done channel of the same `migCtx`, both derived from one
`context.WithTimeout`. -/
theorem migrate_wait_timeout (evs : List WaitEvent)
    (h : ∀ ev ∈ evs, lockedScenarioEvent ev) :
    (runWait waitInit (evs ++ [.ctxDone])).2.1 = some .timedOut ∧
    (runWait waitInit (evs ++ [.ctxDone])).2.2 = [] ∧
    (runWait waitInit evs).2.1 = none := by
  exact ⟨(runWait_timeout_at_deadline evs h waitInit).1,
    (runWait_timeout_at_deadline evs h waitInit).2,
    (runWait_polling_of_locked evs h waitInit).1⟩

/-- Witness for C2 on a schedule with one locked poll before the deadline
fires. -/
theorem migrate_wait_timeout_witness :
    (runWait waitInit ([.tick (.error lockedErr50)] ++ [.ctxDone])).2.1 =
      some .timedOut := by
  have h := migrate_wait_timeout [.tick (.error lockedErr50)]
    (by
      intro ev hev
      simp at hev
      subst hev
      exact ⟨lockedErr50, rfl, by decide⟩)
  exact h.1

/-- Counterexample to C3 as stated: a run in which the 5-second ticker
fires once before the start call resolves with the non-lock domain error
(code 1, "Invalid location").  The protocol does terminate with that
error, but the unlock probe has been invoked once — not never. -/
theorem migrate_wait_failfast_counterexample :
    (runWait waitInit failfastTrace).2.1 = some (.failed invalidLocationErr) ∧
    consumedTicks waitInit failfastTrace = 1 := by
  decide

/-- C3 as amended: as soon as the start call's non-lock domain error is
received, the protocol terminates with exactly that error, reports
nothing, and consumes no further events — in particular, when the error
arrives before the first polling interval the unlock probe is never
invoked. -/
theorem migrate_wait_failfast (e : GoError) (rest : List WaitEvent)
    (_hd : (GetBWHError e).isSome = true) (hl : IsLockedError e = false) :
    runWait waitInit (.acceptErr e :: rest) = ([], some (.failed e), rest) ∧
    consumedTicks waitInit (.acceptErr e :: rest) = 0 := by
  have hstep : waitStep waitInit (.acceptErr e) = (waitInit, [], some (.failed e)) := by
    simp [waitStep, hl]
  constructor
  · simp [runWait, hstep]
  · simp [consumedTicks, runWait, hstep, countTicks]

/-- Witness for the amended C3: the error arrives before any tick and the
probe is never invoked. -/
theorem migrate_wait_failfast_witness :
    runWait waitInit [.acceptErr invalidLocationErr] =
      ([], some (.failed invalidLocationErr), []) ∧
    consumedTicks waitInit [.acceptErr invalidLocationErr] = 0 := by
  exact migrate_wait_failfast invalidLocationErr [] (by decide) (by decide)

end BWH
